import Mathlib

/-!
Verification development for the C-SWM Grafana dashboard K-index pipeline
(`ENT_Kindex.py`, `test.py`).  The Python pipeline is shallowly embedded:

* machine floats are modelled by `ℚ` (all pipeline constants and the
  operations used — add, sub, mul, div, max, min, comparisons — are exact
  on the inputs the claims quantify over);
* `NaN` / missing values are modelled by `Option ℚ` (`none` = missing);
* epoch timestamps (`time_to_float` produces integer seconds via floor
  division by one second) are modelled by `ℤ`;
* numpy floor division `//` is `Int.fdiv`.
-/

/-! ### K-Index Quantizer (ENT_Kindex.py lines 135-138 / test.py lines 228-233) -/

/-- Base threshold table: `np.array([0, 5, 10, 20, 40, 70, 120, 200, 330, 500])`
(`niemegk_thresholds` in test.py). -/
def baseThresholds : List ℚ := [0, 5, 10, 20, 40, 70, 120, 200, 330, 500]

/-- Station scaling `thresholds * k9 / 500.0` (ENT_Kindex.py line 135). -/
def scaledThresholds (k9 : ℚ) : List ℚ := baseThresholds.map (fun t => t * k9 / 500)

/-- Model of `np.searchsorted(a, v, side='right')` for a sorted array `a`:
the insertion index keeping `a` sorted with `v` placed after equal entries,
which for a sorted array equals the number of entries `≤ v`.  The thresholds
the source passes are nondecreasing because the base table is increasing and
`k9 > 0` for every station. -/
def searchsortedRight (l : List ℚ) (v : ℚ) : ℕ := l.countP (fun t => decide (t ≤ v))

/-- Per-element embedding of ENT_Kindex.py lines 135-138:
`k = clip(searchsorted(scaled_thresholds, v, 'right') - 1, 0, 9)` followed by
the `k_values[k_values == 0] = 0.25` rewrite. -/
def kQuantize (v k9 : ℚ) : ℚ :=
  let idx : ℤ := (searchsortedRight (scaledThresholds k9) v : ℤ) - 1
  let clipped : ℤ := max 0 (min idx 9)
  if clipped = 0 then 1/4 else (clipped : ℚ)

/-- The `i`-th scaled threshold (out-of-range indices default to `0`). -/
def scaledThreshold (k9 : ℚ) (i : ℕ) : ℚ := baseThresholds.getD i 0 * k9 / 500

/-! ### Window Aggregator (`calculate_k_index`, ENT_Kindex.py lines 122-134,
test.py lines 206-234) -/

/-- Midnight UTC of the calendar day containing epoch second `t`.  The source
computes `datetime(first_dt.year, first_dt.month, first_dt.day)` from
`datetime.fromtimestamp(t, utc)` and re-encodes it as epoch seconds, which
equals flooring `t` to a multiple of 86400 (Unix time has no leap seconds). -/
def midnightOfDay (t : ℤ) : ℤ := 86400 * Int.fdiv t 86400

/-- Source variable `day_seconds_start_utc` (ENT_Kindex.py lines 125-127):
computed from `minute_time_float[0]`, the FIRST entry, not from the minimum. -/
def dayStart : List ℤ → ℤ
  | [] => 0
  | t :: _ => midnightOfDay t

/-- `hour_blocks = (minute_time_float - day_seconds_start_utc) // 10800`
(ENT_Kindex.py line 128); numpy `//` is floor division. -/
def hourBlocks (times : List ℤ) (ds : ℤ) : List ℤ :=
  times.map (fun t => Int.fdiv (t - ds) 10800)

/-- Insertion step of the sort used to model `np.unique`. -/
def insertAsc (x : ℤ) : List ℤ → List ℤ
  | [] => [x]
  | y :: ys => if x ≤ y then x :: y :: ys else y :: insertAsc x ys

/-- Insertion sort on `ℤ` lists (ascending). -/
def sortAsc (l : List ℤ) : List ℤ := l.foldr insertAsc []

/-- Model of `np.unique hour_blocks` (ENT_Kindex.py line 130): the distinct
values of the input in ascending order. -/
def uniqueSorted (l : List ℤ) : List ℤ := sortAsc l.dedup

/-- Maximum of a value list (`0` on the empty list, which the source never
hits because selections are guarded by the mask count). -/
def listMax : List ℚ → ℚ
  | [] => 0
  | x :: xs => xs.foldl max x

/-- Minimum of a value list. -/
def listMin : List ℚ → ℚ
  | [] => 0
  | x :: xs => xs.foldl min x

/-- `np.ptp` : peak-to-peak range `max - min`. -/
def ptp (l : List ℚ) : ℚ := listMax l - listMin l

/-- `np.sum(mask)` for `mask = hour_blocks == block_idx` (ENT_Kindex.py line 132). -/
def maskCount (blocks : List ℤ) (b : ℤ) : ℕ :=
  blocks.countP (fun c => decide (c = b))

/-- `comp[mask]`: the component values whose position carries block index `b`. -/
def selectVals (blocks : List ℤ) (vals : List ℚ) (b : ℤ) : List ℚ :=
  ((blocks.zip vals).filter (fun p => decide (p.1 = b))).map Prod.snd

/-- Per-block disturbance statistic (ENT_Kindex.py line 132):
`max(ptp(x[mask]), ptp(y[mask])) if sum(mask) > 1 else 0`. -/
def blockVariation (blocks : List ℤ) (xs ys : List ℚ) (b : ℤ) : ℚ :=
  if 1 < maskCount blocks b then
    max (ptp (selectVals blocks xs b)) (ptp (selectVals blocks ys b))
  else 0

/-- The distinct block indices, ascending (`np.unique(hour_blocks)`). -/
def windowBlocks (times : List ℤ) : List ℤ :=
  uniqueSorted (hourBlocks times (dayStart times))

/-- Embedding of `calculate_k_index` (ENT_Kindex.py lines 122-139): empty
input short-circuits to empty outputs; otherwise one K value and one window
midpoint timestamp `day_start + block * 10800 + 5400` per distinct block. -/
def calculate_k_index (times : List ℤ) (xs ys : List ℚ) (k9 : ℚ) :
    List ℚ × List ℤ :=
  if times = [] then ([], [])
  else
    ((windowBlocks times).map (fun b =>
        kQuantize (blockVariation (hourBlocks times (dayStart times)) xs ys b) k9),
     (windowBlocks times).map (fun b => dayStart times + b * 10800 + 5400))

/-- Spec-side notion used by C2: the EARLIEST sample timestamp (the minimum
of the list), as opposed to the first entry the code actually uses. -/
def earliestTime : List ℤ → ℤ
  | [] => 0
  | t :: ts => ts.foldl min t

/-! ### Quality Filter (`preprocess_data`, ENT_Kindex.py lines 107-115,
test.py lines 187-197) -/

/-- A parsed sample row: epoch-second timestamp plus the component values in
the order of the resolved component triplet (`none` = missing / NaN). -/
structure Sample where
  t : ℤ
  vals : List (Option ℚ)
deriving DecidableEq

/-- Column `i` of the batch (`data[components[i]]`; entries past the end of a
row read as missing). -/
def col (rows : List Sample) (i : ℕ) : List (Option ℚ) :=
  rows.map (fun r => r.vals.getD i none)

/-- The non-missing entries of a column (`nan_policy='omit'` statistics). -/
def validVals (c : List (Option ℚ)) : List ℚ := c.filterMap id

/-- Number of non-missing entries. -/
def nval (c : List (Option ℚ)) : ℕ := (validVals c).length

/-- Mean over non-missing entries (the `ℚ` division by zero returns `0`,
reached only when the gate below is already false). -/
def meanQ (c : List (Option ℚ)) : ℚ := (validVals c).sum / (nval c : ℚ)

/-- Sum of squared deviations from the mean over non-missing entries. -/
def ssd (c : List (Option ℚ)) : ℚ :=
  ((validVals c).map (fun x => (x - meanQ c) ^ 2)).sum

/-- The branch guard `x.std(skipna=True) > 0` (pandas sample standard
deviation, `ddof = 1`): defined — and then positive — precisely when the
column has at least two non-missing entries and a nonzero squared-deviation
sum; a NaN std (fewer than two entries) compares as `False`. -/
def sampleStdPos (c : List (Option ℚ)) : Bool :=
  decide (2 ≤ nval c ∧ 0 < ssd c)

/-- Per-entry retention test for one component column.  When the gate holds,
scipy `zscore(x, nan_policy='omit')` (population `ddof = 0`) is NaN on a
missing entry — and `np.abs(NaN) <= 2.5` is `False` — while a present entry
`x` passes iff `|x - mean| / sqrt(ssd/n) <= 5/2`, encoded square-root-free
as `(x - mean)^2 <= (5/2)^2 * (ssd/n)` (equivalent over the reals, see
`zOK_iff_abs_score_le`).  When the gate fails, the column's scores are
`np.zeros_like(x)` and every entry passes. -/
def zOK (c : List (Option ℚ)) (v : Option ℚ) : Bool :=
  if sampleStdPos c then
    match v with
    | none => false
    | some x => decide ((x - meanQ c) ^ 2 ≤ (5/2) ^ 2 * (ssd c / (nval c : ℚ)))
  else true

/-- Embedding of `preprocess_data(data, components)` (ENT_Kindex.py lines
107-115) for a batch of rows carrying `ncomp` numeric component columns:
keep the rows whose every column entry passes `zOK`
(`valid_mask = (np.abs(z_scores) <= 2.5).all(axis=1)`); the empty batch is
returned unchanged. -/
def preprocess_data (rows : List Sample) (ncomp : ℕ) : List Sample :=
  if rows = [] then rows
  else rows.filter (fun r =>
    (List.range ncomp).all (fun i => zOK (col rows i) (r.vals.getD i none)))

/-! ### Record Parser (`read_iaga2002`, test.py lines 85-185; the reduced
variant in ENT_Kindex.py lines 69-105 implements only the generic `X,Y,Z`
path of the resolution cascade).  The embedding takes the stripped nonempty
lines of the file, the form the source's header scan works on. -/

/-- Character-list tokenizer behind `pySplit`. -/
def splitWSAux : List Char → List Char → List (List Char)
  | [], acc => if acc.isEmpty then [] else [acc.reverse]
  | ch :: rest, acc =>
    if ch.isWhitespace then
      if acc.isEmpty then splitWSAux rest []
      else acc.reverse :: splitWSAux rest []
    else splitWSAux rest (ch :: acc)

/-- Python `str.split()` with no argument (also pandas `sep='\s+'` row
splitting): split on whitespace runs, yielding no empty tokens. -/
def pySplit (s : String) : List String :=
  (splitWSAux s.toList []).map List.asString

/-- Python `field.strip().replace('|', '')` on a whitespace-free token:
remove every pipe character (test.py line 101). -/
def stripPipes (s : String) : String :=
  (s.toList.filter (fun ch => ch ≠ '|')).asString

/-- Header tokenization (test.py line 101). -/
def headerFieldsOf (line : String) : List String :=
  (pySplit line).map stripPipes

/-- Bool test that `pre` begins `s` (Python `startswith`). -/
def listBegins : List Char → List Char → Bool
  | _, [] => true
  | [], _ :: _ => false
  | c :: cs, p :: ps => decide (c = p) && listBegins cs ps

/-- String form of `listBegins`. -/
def strBegins (s pre : String) : Bool := listBegins s.toList pre.toList

/-- Bool test that `pat` occurs inside `s` (Python `in`). -/
def strHas (s pat : String) : Bool :=
  (List.range (s.toList.length + 1)).any
    (fun i => decide ((s.toList.drop i).take pat.toList.length = pat.toList))

/-- Header-line test (test.py line 93): the line starts with `DATE` and
holds `TIME` and `DOY`. -/
def isHeaderLine (line : String) : Bool :=
  strBegins line "DATE" && strHas line "TIME" && strHas line "DOY"

/-- All the candidate labels occur among the header fields. -/
def allIn (cs hf : List String) : Bool := cs.all (fun c => decide (c ∈ hf))

/-- Last whitespace token of a line (`line.split()[-1]`), `""` if none. -/
def lastToken (s : String) : String := (pySplit s).getLastD ""

/-- `''.join(filter(str.isalpha, tok)).upper()` (test.py line 122). -/
def alphaUpper (s : String) : String :=
  ((s.toList.filter Char.isAlpha).map Char.toUpper).asString

/-- Decode a reported-components code (test.py lines 123-126). -/
def decodeReported (code : String) : Option (List String) :=
  if code = "XYZF" ∨ code = "XYZ" then some ["X", "Y", "Z"]
  else if code = "HDZF" ∨ code = "HDZ" then some ["H", "D", "Z"]
  else none

/-- Scan of the metadata lines before the header (test.py lines 119-126):
each `Reported` line whose decoded code is recognized overwrites the result,
unrecognized codes leave it unchanged. -/
def scanReported (lines : List String) : Option (List String) :=
  lines.foldl
    (fun acc line =>
      if strBegins line "Reported" then
        match decodeReported (alphaUpper (lastToken line)) with
        | some comps => some comps
        | none => acc
      else acc)
    none

/-- Component resolution cascade (test.py lines 106-126), for the station
code `ENT`: generic `X,Y,Z`; generic `H,D,Z`; station-prefixed
`ENTX,ENTY,ENTZ`; station-prefixed `ENTH,ENTD,ENTZ`; then the metadata
scan. -/
def resolveComponents (hf metaLines : List String) : Option (List String) :=
  if allIn ["X", "Y", "Z"] hf then some ["X", "Y", "Z"]
  else if allIn ["H", "D", "Z"] hf then some ["H", "D", "Z"]
  else if allIn ["ENTX", "ENTY", "ENTZ"] hf then some ["X", "Y", "Z"]
  else if allIn ["ENTH", "ENTD", "ENTZ"] hf then some ["H", "D", "Z"]
  else scanReported metaLines

/-- Column renaming (test.py lines 147-162): station-prefixed column labels
are renamed to the generic ones before the component columns are read. -/
def renamedHeader (hf : List String) : List String :=
  if "ENTX" ∈ hf then
    hf.map (fun f => if f = "ENTX" then "X" else if f = "ENTY" then "Y"
      else if f = "ENTZ" then "Z" else f)
  else if "ENTH" ∈ hf then
    hf.map (fun f => if f = "ENTH" then "H" else if f = "ENTD" then "D"
      else if f = "ENTZ" then "Z" else f)
  else hf

/-- Digits-only parse of a character run. -/
def digitsVal (l : List Char) : Option ℕ :=
  if l ≠ [] ∧ l.all Char.isDigit then
    some (l.foldl (fun a ch => a * 10 + (ch.toNat - 48)) 0)
  else none

/-- Decimal-token parse modelling `pd.to_numeric(..., errors='coerce')` on
data-row cells (optional sign, integer digits, optional fractional digits);
any other token coerces to missing. -/
def parseRat (s : String) : Option ℚ :=
  let signed : ℚ × List Char :=
    match s.toList with
    | '-' :: r => (-1, r)
    | '+' :: r => (1, r)
    | r => (1, r)
  let ip := signed.2.takeWhile (fun ch => ch ≠ '.')
  match signed.2.dropWhile (fun ch => ch ≠ '.') with
  | [] => (digitsVal ip).map (fun a => signed.1 * a)
  | _ :: frac =>
    match digitsVal ip, digitsVal frac with
    | some a, some f =>
      some (signed.1 * ((a : ℚ) + (f : ℚ) / (10 : ℚ) ^ frac.length))
    | _, _ => none

/-- Data-cell decoding: the sentinels `99999.00` / `99999.9` are declared
`na_values` (ENT_Kindex.py line 94, test.py line 143, which lists both the
numeric and the string forms), so a cell whose numeric value equals one of
them decodes to missing rather than to the literal number. -/
def parseValue (tok : String) : Option ℚ :=
  (parseRat tok).bind fun v =>
    if v = 99999 ∨ v = 999999 / 10 then none else some v

/-- Gregorian leap-year test. -/
def isLeap (y : ℕ) : Bool := (y % 4 = 0 && y % 100 ≠ 0) || y % 400 = 0

/-- Length of a month. -/
def daysInMonth (y m : ℕ) : ℕ :=
  if m = 2 then (if isLeap y then 29 else 28)
  else if m = 4 ∨ m = 6 ∨ m = 9 ∨ m = 11 then 30
  else 31

/-- Days from 1970-01-01 to `y-m-d` (the standard civil-calendar algorithm;
Unix time has no leap seconds). -/
def daysFromCivil (y m d : ℕ) : ℤ :=
  let yy : ℤ := (y : ℤ) - (if m ≤ 2 then 1 else 0)
  let era : ℤ := Int.fdiv yy 400
  let yoe : ℤ := yy - era * 400
  let mp : ℤ := ((m : ℤ) + 9) % 12
  let doy : ℤ := Int.fdiv (153 * mp + 2) 5 + (d : ℤ) - 1
  let doe : ℤ := yoe * 365 + Int.fdiv yoe 4 - Int.fdiv yoe 100 + doy
  era * 146097 + doe - 719468

/-- Strict `YYYY-MM-DD` date parse with range checks (pandas `to_datetime`
with `errors='coerce'` likewise turns out-of-range fields into `NaT`). -/
def parseDate (s : String) : Option (ℕ × ℕ × ℕ) :=
  match s.toList with
  | [y1, y2, y3, y4, '-', m1, m2, '-', d1, d2] =>
    match digitsVal [y1, y2, y3, y4], digitsVal [m1, m2], digitsVal [d1, d2] with
    | some y, some m, some d =>
      if 1 ≤ m ∧ m ≤ 12 ∧ 1 ≤ d ∧ d ≤ daysInMonth y m then some (y, m, d) else none
    | _, _, _ => none
  | _ => none

/-- Strict `HH:MM:SS` / `HH:MM:SS.fff` time parse; a fractional part must be
digits and is floored away (`time_to_float` floor-divides to whole
seconds). -/
def parseTime (s : String) : Option (ℕ × ℕ × ℕ) :=
  match s.toList with
  | [h1, h2, ':', m1, m2, ':', s1, s2] =>
    match digitsVal [h1, h2], digitsVal [m1, m2], digitsVal [s1, s2] with
    | some hh, some mm, some ss =>
      if hh ≤ 23 ∧ mm ≤ 59 ∧ ss ≤ 59 then some (hh, mm, ss) else none
    | _, _, _ => none
  | h1 :: h2 :: ':' :: m1 :: m2 :: ':' :: s1 :: s2 :: '.' :: frac =>
    match digitsVal [h1, h2], digitsVal [m1, m2], digitsVal [s1, s2], digitsVal frac with
    | some hh, some mm, some ss, some _ =>
      if hh ≤ 23 ∧ mm ≤ 59 ∧ ss ≤ 59 then some (hh, mm, ss) else none
    | _, _, _, _ => none
  | _ => none

/-- Epoch seconds of a civil UTC datetime. -/
def epochSeconds (y m d hh mm ss : ℕ) : ℤ :=
  daysFromCivil y m d * 86400 + (hh : ℤ) * 3600 + (mm : ℤ) * 60 + (ss : ℤ)

/-- Cell of column `c` in a tokenized row: pandas assigns the row's tokens to
the header fields in order; a short row leaves trailing columns missing. -/
def tokenAt (toks hdr : List String) (c : String) : Option String :=
  match hdr.findIdx? (fun f => decide (f = c)) with
  | none => none
  | some i => toks.get? i

/-- Parse of one data row (test.py lines 138-176): the `DATE` and `TIME`
cells must combine into a valid timestamp — otherwise the row is dropped
silently by `dropna(subset=["DATETIME"])` — and each component cell is
numeric-coerced with sentinel handling. -/
def parseRow (hdr comps : List String) (line : String) : Option Sample :=
  let toks := pySplit line
  (tokenAt toks hdr "DATE").bind fun dtok =>
  (tokenAt toks hdr "TIME").bind fun ttok =>
  (parseDate dtok).bind fun dv =>
  (parseTime ttok).bind fun tv =>
  some ⟨epochSeconds dv.1 dv.2.1 dv.2.2 tv.1 tv.2.1 tv.2.2,
    comps.map (fun c => (tokenAt toks hdr c).bind parseValue)⟩

/-- The parser's failure modes (spec section 7 names the file-structure
failures `FormatError`). -/
inductive FormatError where
  | headerNotFound
  | noValidComponents
  | missingColumns
deriving DecidableEq

/-- Result of a successful parse. -/
structure ParsedFile where
  samples : List Sample
  components : List String
deriving DecidableEq

/-- Embedding of `read_iaga2002` (test.py lines 85-185) over the stripped
nonempty lines of a file: locate the header line, resolve the component
triplet (error `noValidComponents` exactly when the cascade fails), rename
station-prefixed columns, and parse every following data row, dropping rows
without a parseable timestamp.  The `DATE`/`TIME`/component column-presence
failures that pandas raises as exceptions (caught and turned into an empty
result) are the `missingColumns` error. -/
def read_iaga2002 (lines : List String) : Except FormatError ParsedFile :=
  match lines.findIdx? isHeaderLine with
  | none => Except.error FormatError.headerNotFound
  | some i =>
    let hf := headerFieldsOf (lines.getD i "")
    match resolveComponents hf (lines.take i) with
    | none => Except.error FormatError.noValidComponents
    | some comps =>
      let hdr := renamedHeader hf
      if "DATE" ∈ hdr ∧ "TIME" ∈ hdr ∧ ∀ c ∈ comps, c ∈ hdr then
        Except.ok ⟨(lines.drop (i + 1)).filterMap (parseRow hdr comps), comps⟩
      else Except.error FormatError.missingColumns

/-- Batch with seven identical readings and one spike of a millionth: the
single component's variance is tiny (below `10 ^ (-12)`) yet positive. -/
def nearZeroRows : List Sample :=
  [⟨0, [some 0]⟩, ⟨1, [some 0]⟩, ⟨2, [some 0]⟩, ⟨3, [some 0]⟩,
   ⟨4, [some 0]⟩, ⟨5, [some 0]⟩, ⟨6, [some 0]⟩, ⟨7, [some (1/1000000)]⟩]

lemma scaled_le_iff (v k9 t : ℚ) (hk : 0 < k9) : t * k9 / 500 ≤ v ↔ t ≤ v * 500 / k9 := by
  rw [div_le_iff₀ (show (0:ℚ) < 500 by norm_num), le_div_iff₀ hk]

lemma scaledThreshold_le_iff (v k9 : ℚ) (hk : 0 < k9) (i : ℕ) :
    scaledThreshold k9 i ≤ v ↔ baseThresholds.getD i 0 ≤ v * 500 / k9 :=
  scaled_le_iff v k9 _ hk

lemma searchsorted_scaled (v k9 : ℚ) (hk : 0 < k9) :
    searchsortedRight (scaledThresholds k9) v = searchsortedRight baseThresholds (v * 500 / k9) := by
  unfold searchsortedRight scaledThresholds
  rw [List.countP_map]
  congr 1
  funext t
  simp only [Function.comp]
  exact decide_eq_decide.mpr (scaled_le_iff v k9 t hk)

lemma kQuantize_eq_of_count (v k9 : ℚ) (m : ℕ) (h1 : 1 ≤ m) (h9 : m ≤ 10)
    (hc : searchsortedRight (scaledThresholds k9) v = m) :
    kQuantize v k9 = if m - 1 = 0 then 1/4 else ((m - 1 : ℕ) : ℚ) := by
  simp only [kQuantize, hc]
  have hclip : max 0 (min ((m : ℤ) - 1) 9) = (m : ℤ) - 1 := by omega
  rw [hclip]
  have hiff : ((m : ℤ) - 1 = 0) ↔ (m - 1 = 0) := by omega
  by_cases h : m - 1 = 0
  · rw [if_pos (hiff.mpr h), if_pos h]
  · rw [if_neg (fun hz => h (hiff.mp hz)), if_neg h]
    have : ((m : ℤ) - 1) = ((m - 1 : ℕ) : ℤ) := by omega
    rw [this]
    push_cast
    ring

lemma countCase0 (w : ℚ) (h0 : 0 ≤ w) (hb : w < 5) : searchsortedRight baseThresholds w = 1 := by
  unfold searchsortedRight baseThresholds
  simp [List.countP_cons, List.countP_nil, decide_eq_true_eq, h0,
    show ¬((5:ℚ) ≤ w) from not_le.mpr (by linarith),
    show ¬((10:ℚ) ≤ w) from not_le.mpr (by linarith),
    show ¬((20:ℚ) ≤ w) from not_le.mpr (by linarith),
    show ¬((40:ℚ) ≤ w) from not_le.mpr (by linarith),
    show ¬((70:ℚ) ≤ w) from not_le.mpr (by linarith),
    show ¬((120:ℚ) ≤ w) from not_le.mpr (by linarith),
    show ¬((200:ℚ) ≤ w) from not_le.mpr (by linarith),
    show ¬((330:ℚ) ≤ w) from not_le.mpr (by linarith),
    show ¬((500:ℚ) ≤ w) from not_le.mpr (by linarith)]

lemma countCase1 (w : ℚ) (ha : 5 ≤ w) (hb : w < 10) : searchsortedRight baseThresholds w = 2 := by
  unfold searchsortedRight baseThresholds
  simp [List.countP_cons, List.countP_nil, decide_eq_true_eq,
    show (0:ℚ) ≤ w by linarith, ha,
    show ¬((10:ℚ) ≤ w) from not_le.mpr (by linarith),
    show ¬((20:ℚ) ≤ w) from not_le.mpr (by linarith),
    show ¬((40:ℚ) ≤ w) from not_le.mpr (by linarith),
    show ¬((70:ℚ) ≤ w) from not_le.mpr (by linarith),
    show ¬((120:ℚ) ≤ w) from not_le.mpr (by linarith),
    show ¬((200:ℚ) ≤ w) from not_le.mpr (by linarith),
    show ¬((330:ℚ) ≤ w) from not_le.mpr (by linarith),
    show ¬((500:ℚ) ≤ w) from not_le.mpr (by linarith)]

lemma countCase2 (w : ℚ) (ha : 10 ≤ w) (hb : w < 20) : searchsortedRight baseThresholds w = 3 := by
  unfold searchsortedRight baseThresholds
  simp [List.countP_cons, List.countP_nil, decide_eq_true_eq,
    show (0:ℚ) ≤ w by linarith, show (5:ℚ) ≤ w by linarith, ha,
    show ¬((20:ℚ) ≤ w) from not_le.mpr (by linarith),
    show ¬((40:ℚ) ≤ w) from not_le.mpr (by linarith),
    show ¬((70:ℚ) ≤ w) from not_le.mpr (by linarith),
    show ¬((120:ℚ) ≤ w) from not_le.mpr (by linarith),
    show ¬((200:ℚ) ≤ w) from not_le.mpr (by linarith),
    show ¬((330:ℚ) ≤ w) from not_le.mpr (by linarith),
    show ¬((500:ℚ) ≤ w) from not_le.mpr (by linarith)]

lemma countCase3 (w : ℚ) (ha : 20 ≤ w) (hb : w < 40) : searchsortedRight baseThresholds w = 4 := by
  unfold searchsortedRight baseThresholds
  simp [List.countP_cons, List.countP_nil, decide_eq_true_eq,
    show (0:ℚ) ≤ w by linarith, show (5:ℚ) ≤ w by linarith,
    show (10:ℚ) ≤ w by linarith, ha,
    show ¬((40:ℚ) ≤ w) from not_le.mpr (by linarith),
    show ¬((70:ℚ) ≤ w) from not_le.mpr (by linarith),
    show ¬((120:ℚ) ≤ w) from not_le.mpr (by linarith),
    show ¬((200:ℚ) ≤ w) from not_le.mpr (by linarith),
    show ¬((330:ℚ) ≤ w) from not_le.mpr (by linarith),
    show ¬((500:ℚ) ≤ w) from not_le.mpr (by linarith)]

lemma countCase4 (w : ℚ) (ha : 40 ≤ w) (hb : w < 70) : searchsortedRight baseThresholds w = 5 := by
  unfold searchsortedRight baseThresholds
  simp [List.countP_cons, List.countP_nil, decide_eq_true_eq,
    show (0:ℚ) ≤ w by linarith, show (5:ℚ) ≤ w by linarith,
    show (10:ℚ) ≤ w by linarith, show (20:ℚ) ≤ w by linarith, ha,
    show ¬((70:ℚ) ≤ w) from not_le.mpr (by linarith),
    show ¬((120:ℚ) ≤ w) from not_le.mpr (by linarith),
    show ¬((200:ℚ) ≤ w) from not_le.mpr (by linarith),
    show ¬((330:ℚ) ≤ w) from not_le.mpr (by linarith),
    show ¬((500:ℚ) ≤ w) from not_le.mpr (by linarith)]

lemma countCase5 (w : ℚ) (ha : 70 ≤ w) (hb : w < 120) : searchsortedRight baseThresholds w = 6 := by
  unfold searchsortedRight baseThresholds
  simp [List.countP_cons, List.countP_nil, decide_eq_true_eq,
    show (0:ℚ) ≤ w by linarith, show (5:ℚ) ≤ w by linarith,
    show (10:ℚ) ≤ w by linarith, show (20:ℚ) ≤ w by linarith,
    show (40:ℚ) ≤ w by linarith, ha,
    show ¬((120:ℚ) ≤ w) from not_le.mpr (by linarith),
    show ¬((200:ℚ) ≤ w) from not_le.mpr (by linarith),
    show ¬((330:ℚ) ≤ w) from not_le.mpr (by linarith),
    show ¬((500:ℚ) ≤ w) from not_le.mpr (by linarith)]

lemma countCase6 (w : ℚ) (ha : 120 ≤ w) (hb : w < 200) : searchsortedRight baseThresholds w = 7 := by
  unfold searchsortedRight baseThresholds
  simp [List.countP_cons, List.countP_nil, decide_eq_true_eq,
    show (0:ℚ) ≤ w by linarith, show (5:ℚ) ≤ w by linarith,
    show (10:ℚ) ≤ w by linarith, show (20:ℚ) ≤ w by linarith,
    show (40:ℚ) ≤ w by linarith, show (70:ℚ) ≤ w by linarith, ha,
    show ¬((200:ℚ) ≤ w) from not_le.mpr (by linarith),
    show ¬((330:ℚ) ≤ w) from not_le.mpr (by linarith),
    show ¬((500:ℚ) ≤ w) from not_le.mpr (by linarith)]

lemma countCase7 (w : ℚ) (ha : 200 ≤ w) (hb : w < 330) : searchsortedRight baseThresholds w = 8 := by
  unfold searchsortedRight baseThresholds
  simp [List.countP_cons, List.countP_nil, decide_eq_true_eq,
    show (0:ℚ) ≤ w by linarith, show (5:ℚ) ≤ w by linarith,
    show (10:ℚ) ≤ w by linarith, show (20:ℚ) ≤ w by linarith,
    show (40:ℚ) ≤ w by linarith, show (70:ℚ) ≤ w by linarith,
    show (120:ℚ) ≤ w by linarith, ha,
    show ¬((330:ℚ) ≤ w) from not_le.mpr (by linarith),
    show ¬((500:ℚ) ≤ w) from not_le.mpr (by linarith)]

lemma countCase8 (w : ℚ) (ha : 330 ≤ w) (hb : w < 500) : searchsortedRight baseThresholds w = 9 := by
  unfold searchsortedRight baseThresholds
  simp [List.countP_cons, List.countP_nil, decide_eq_true_eq,
    show (0:ℚ) ≤ w by linarith, show (5:ℚ) ≤ w by linarith,
    show (10:ℚ) ≤ w by linarith, show (20:ℚ) ≤ w by linarith,
    show (40:ℚ) ≤ w by linarith, show (70:ℚ) ≤ w by linarith,
    show (120:ℚ) ≤ w by linarith, show (200:ℚ) ≤ w by linarith, ha,
    show ¬((500:ℚ) ≤ w) from not_le.mpr (by linarith)]

lemma countCase9 (w : ℚ) (ha : 500 ≤ w) : searchsortedRight baseThresholds w = 10 := by
  unfold searchsortedRight baseThresholds
  simp [List.countP_cons, List.countP_nil, decide_eq_true_eq,
    show (0:ℚ) ≤ w by linarith, show (5:ℚ) ≤ w by linarith,
    show (10:ℚ) ≤ w by linarith, show (20:ℚ) ≤ w by linarith,
    show (40:ℚ) ≤ w by linarith, show (70:ℚ) ≤ w by linarith,
    show (120:ℚ) ≤ w by linarith, show (200:ℚ) ≤ w by linarith,
    show (330:ℚ) ≤ w by linarith, ha]

lemma insertAsc_perm (x : ℤ) (l : List ℤ) : List.Perm (insertAsc x l) (x :: l) := by
  induction l with
  | nil => exact List.Perm.refl _
  | cons y ys ih =>
    simp only [insertAsc]
    split
    · exact List.Perm.refl _
    · exact (List.Perm.cons y ih).trans (List.Perm.swap x y ys)

lemma sortAsc_perm (l : List ℤ) : List.Perm (sortAsc l) l := by
  induction l with
  | nil => exact List.Perm.refl _
  | cons x xs ih =>
    simp only [sortAsc, List.foldr_cons]
    exact (insertAsc_perm x (sortAsc xs)).trans (List.Perm.cons x ih)

lemma insertAsc_sorted (x : ℤ) (l : List ℤ) (h : l.Sorted (· ≤ ·)) :
    (insertAsc x l).Sorted (· ≤ ·) := by
  induction l with
  | nil => simp [insertAsc]
  | cons y ys ih =>
    rw [List.sorted_cons] at h
    simp only [insertAsc]
    split
    · rename_i hxy
      rw [List.sorted_cons]
      refine ⟨?_, List.sorted_cons.mpr h⟩
      intro b hb
      rcases List.mem_cons.mp hb with hb | hb
      · subst hb
        exact hxy
      · exact le_trans hxy (h.1 b hb)
    · rename_i hxy
      rw [List.sorted_cons]
      refine ⟨?_, ih h.2⟩
      intro b hb
      rcases List.mem_cons.mp ((insertAsc_perm x ys).mem_iff.mp hb) with hb | hb
      · subst hb
        exact le_of_not_le hxy
      · exact h.1 b hb

lemma sortAsc_sorted (l : List ℤ) : (sortAsc l).Sorted (· ≤ ·) := by
  induction l with
  | nil => simp [sortAsc]
  | cons x xs ih =>
    simp only [sortAsc, List.foldr_cons]
    exact insertAsc_sorted x (sortAsc xs) ih

lemma uniqueSorted_mem (l : List ℤ) (b : ℤ) : b ∈ uniqueSorted l ↔ b ∈ l :=
  (sortAsc_perm l.dedup).mem_iff.trans (List.mem_dedup)

lemma uniqueSorted_nodup (l : List ℤ) : (uniqueSorted l).Nodup :=
  ((sortAsc_perm l.dedup).nodup_iff).mpr (List.nodup_dedup l)

lemma uniqueSorted_sorted_lt (l : List ℤ) : (uniqueSorted l).Sorted (· < ·) := by
  have hs : (uniqueSorted l).Sorted (· ≤ ·) := sortAsc_sorted l.dedup
  have hn : (uniqueSorted l).Pairwise (· ≠ ·) := uniqueSorted_nodup l
  exact (hs.and hn).imp (fun h => lt_of_le_of_ne h.1 h.2)

lemma foldl_min_of_head_le (t : ℤ) (ts : List ℤ) (h : ∀ u ∈ ts, t ≤ u) :
    ts.foldl min t = t := by
  induction ts generalizing t with
  | nil => rfl
  | cons u us ih =>
    rw [List.foldl_cons, min_eq_left (h u (by simp))]
    exact ih t (fun w hw => h w (by simp [hw]))

lemma earliestTime_of_sorted (t : ℤ) (ts : List ℤ) (h : (t :: ts).Sorted (· ≤ ·)) :
    earliestTime (t :: ts) = t :=
  foldl_min_of_head_le t ts (List.sorted_cons.mp h).1

lemma kQuantize_zero (k9 : ℚ) (hk : 0 < k9) : kQuantize 0 k9 = 1/4 := by
  have h0 : (0:ℚ) * 500 / k9 = 0 := by rw [zero_mul, zero_div]
  have hc : searchsortedRight (scaledThresholds k9) 0 = 1 := by
    rw [searchsorted_scaled 0 k9 hk, h0]
    exact countCase0 0 le_rfl (by norm_num)
  rw [kQuantize_eq_of_count 0 k9 1 (by norm_num) (by norm_num) hc]
  norm_num

lemma selectVals_length : ∀ (blocks : List ℤ) (vals : List ℚ) (b : ℤ),
    blocks.length = vals.length →
    (selectVals blocks vals b).length = maskCount blocks b := by
  intro blocks
  induction blocks with
  | nil =>
    intro vals b h
    simp [selectVals, maskCount]
  | cons c cs ih =>
    intro vals b h
    cases vals with
    | nil => simp at h
    | cons v vs =>
      have hlen : cs.length = vs.length := by simpa using h
      have hrec := ih vs b hlen
      simp only [selectVals, maskCount] at hrec ⊢
      simp only [List.zip_cons_cons, List.filter_cons, List.countP_cons]
      by_cases hc : c = b
      · simp [hc] at hrec ⊢
        omega
      · simp [hc] at hrec ⊢
        omega

lemma ssd_nonneg (c : List (Option ℚ)) : 0 ≤ ssd c := by
  unfold ssd
  apply List.sum_nonneg
  intro q hq
  rcases List.mem_map.mp hq with ⟨x, hx, rfl⟩
  positivity

lemma ssd_pos_nval (c : List (Option ℚ)) (h : 0 < ssd c) : 2 ≤ nval c := by
  rcases hv : validVals c with _ | ⟨x, xs⟩
  · exfalso
    unfold ssd at h
    rw [hv] at h
    simp at h
  · rcases xs with _ | ⟨y, ys⟩
    · exfalso
      unfold ssd meanQ nval at h
      rw [hv] at h
      simp at h
    · unfold nval
      rw [hv]
      simp

lemma sampleStdPos_iff (c : List (Option ℚ)) : sampleStdPos c = true ↔ 0 < ssd c := by
  unfold sampleStdPos
  rw [decide_eq_true_eq]
  exact ⟨fun h => h.2, fun h => ⟨ssd_pos_nval c h, h⟩⟩

lemma sampleStdPos_false_iff (c : List (Option ℚ)) : sampleStdPos c = false ↔ ssd c = 0 := by
  rw [← Bool.not_eq_true, sampleStdPos_iff]
  constructor
  · intro h
    exact le_antisymm (not_lt.mp h) (ssd_nonneg c)
  · intro h
    rw [h]
    exact lt_irrefl 0

/-- The square-root-free retention test used by `zOK` is exactly the bound
`|z| <= 5/2` on the real-valued standard score `(x - mean) / sqrt(ssd/n)`. -/
lemma zOK_iff_abs_score_le (c : List (Option ℚ)) (x : ℚ) (h : sampleStdPos c = true) :
    (zOK c (some x) = true ↔
      |(x : ℝ) - (meanQ c : ℝ)| / Real.sqrt ((ssd c : ℝ) / (nval c : ℝ)) ≤ 5/2) := by
  have hssd : 0 < ssd c := (sampleStdPos_iff c).mp h
  have hn2 : 2 ≤ nval c := ssd_pos_nval c hssd
  have hnR : (0:ℝ) < (nval c : ℝ) := by
    have h0 : (0:ℕ) < nval c := by omega
    exact_mod_cast h0
  have hsR : (0:ℝ) < (ssd c : ℝ) := by exact_mod_cast hssd
  have hV : (0:ℝ) < (ssd c : ℝ) / (nval c : ℝ) := div_pos hsR hnR
  have hrt : 0 < Real.sqrt ((ssd c : ℝ) / (nval c : ℝ)) := Real.sqrt_pos.mpr hV
  have hzok : zOK c (some x)
      = decide ((x - meanQ c) ^ 2 ≤ (5/2) ^ 2 * (ssd c / (nval c : ℚ))) := by
    unfold zOK
    rw [if_pos h]
  rw [hzok, decide_eq_true_eq, div_le_iff₀ hrt]
  constructor
  · intro hle
    have h1 : ((x : ℝ) - (meanQ c : ℝ)) ^ 2
        ≤ (5/2) ^ 2 * ((ssd c : ℝ) / (nval c : ℝ)) := by
      have h3 : (((x - meanQ c) ^ 2 : ℚ) : ℝ)
          ≤ (((5/2) ^ 2 * (ssd c / (nval c : ℚ)) : ℚ) : ℝ) := Rat.cast_le.mpr hle
      push_cast at h3
      exact h3
    calc |(x : ℝ) - (meanQ c : ℝ)|
        = Real.sqrt (((x : ℝ) - (meanQ c : ℝ)) ^ 2) := (Real.sqrt_sq_eq_abs _).symm
      _ ≤ Real.sqrt ((5/2) ^ 2 * ((ssd c : ℝ) / (nval c : ℝ))) := Real.sqrt_le_sqrt h1
      _ = (5/2) * Real.sqrt ((ssd c : ℝ) / (nval c : ℝ)) := by
          rw [Real.sqrt_mul (by positivity) _]
          congr 1
          rw [Real.sqrt_sq (by norm_num)]
  · intro hle
    have h1 : ((x : ℝ) - (meanQ c : ℝ)) ^ 2
        ≤ ((5/2) * Real.sqrt ((ssd c : ℝ) / (nval c : ℝ))) ^ 2 := by
      rw [← sq_abs]
      exact pow_le_pow_left₀ (abs_nonneg _) hle 2
    rw [mul_pow, Real.sq_sqrt hV.le] at h1
    have h3 : (((x - meanQ c) ^ 2 : ℚ) : ℝ)
        ≤ (((5/2) ^ 2 * (ssd c / (nval c : ℚ)) : ℚ) : ℝ) := by
      push_cast
      exact h1
    exact Rat.cast_le.mp h3

/-- C1: for every disturbance statistic `v >= 0` and K9 limit `k9 > 0`, the
quantizer returns the greatest index `i` with `scaledThreshold k9 i <= v`,
clamped to `[0, 9]`, reporting index `0` as `0.25` and indices `1..9` as-is;
in particular for `k9 = 500`: statistic `120` maps to `6`, `4` maps to `0.25`,
and `501` maps to `9`. -/
theorem c1_quantizer_greatest_index (v k9 : ℚ) (hv : 0 ≤ v) (hk : 0 < k9) :
    (∃ i : ℕ, i ≤ 9 ∧ scaledThreshold k9 i ≤ v ∧
      (∀ j : ℕ, j ≤ 9 → scaledThreshold k9 j ≤ v → j ≤ i) ∧
      kQuantize v k9 = if i = 0 then 1/4 else (i : ℚ)) ∧
    kQuantize 120 500 = 6 ∧ kQuantize 4 500 = 1/4 ∧ kQuantize 501 500 = 9 := by
  have hw : (0:ℚ) ≤ v * 500 / k9 := by positivity
  constructor
  · rcases lt_or_le (v * 500 / k9) 5 with hb | ha
    · refine ⟨0, by norm_num, ?_, ?_, ?_⟩
      · rw [scaledThreshold_le_iff v k9 hk]
        exact hw
      · intro j hj hsc
        rw [scaledThreshold_le_iff v k9 hk] at hsc
        interval_cases j
        · norm_num
        · exact absurd (show (5:ℚ) ≤ v * 500 / k9 from hsc) (by linarith)
        · exact absurd (show (10:ℚ) ≤ v * 500 / k9 from hsc) (by linarith)
        · exact absurd (show (20:ℚ) ≤ v * 500 / k9 from hsc) (by linarith)
        · exact absurd (show (40:ℚ) ≤ v * 500 / k9 from hsc) (by linarith)
        · exact absurd (show (70:ℚ) ≤ v * 500 / k9 from hsc) (by linarith)
        · exact absurd (show (120:ℚ) ≤ v * 500 / k9 from hsc) (by linarith)
        · exact absurd (show (200:ℚ) ≤ v * 500 / k9 from hsc) (by linarith)
        · exact absurd (show (330:ℚ) ≤ v * 500 / k9 from hsc) (by linarith)
        · exact absurd (show (500:ℚ) ≤ v * 500 / k9 from hsc) (by linarith)
      · rw [kQuantize_eq_of_count v k9 1 (by norm_num) (by norm_num)
          ((searchsorted_scaled v k9 hk).trans (countCase0 (v * 500 / k9) hw hb))]
    · rcases lt_or_le (v * 500 / k9) 10 with hb | ha
      · refine ⟨1, by norm_num, ?_, ?_, ?_⟩
        · rw [scaledThreshold_le_iff v k9 hk]
          exact ha
        · intro j hj hsc
          rw [scaledThreshold_le_iff v k9 hk] at hsc
          interval_cases j
          · norm_num
          · norm_num
          · exact absurd (show (10:ℚ) ≤ v * 500 / k9 from hsc) (by linarith)
          · exact absurd (show (20:ℚ) ≤ v * 500 / k9 from hsc) (by linarith)
          · exact absurd (show (40:ℚ) ≤ v * 500 / k9 from hsc) (by linarith)
          · exact absurd (show (70:ℚ) ≤ v * 500 / k9 from hsc) (by linarith)
          · exact absurd (show (120:ℚ) ≤ v * 500 / k9 from hsc) (by linarith)
          · exact absurd (show (200:ℚ) ≤ v * 500 / k9 from hsc) (by linarith)
          · exact absurd (show (330:ℚ) ≤ v * 500 / k9 from hsc) (by linarith)
          · exact absurd (show (500:ℚ) ≤ v * 500 / k9 from hsc) (by linarith)
        · rw [kQuantize_eq_of_count v k9 2 (by norm_num) (by norm_num)
            ((searchsorted_scaled v k9 hk).trans (countCase1 (v * 500 / k9) ha hb))]
      · rcases lt_or_le (v * 500 / k9) 20 with hb | ha
        · refine ⟨2, by norm_num, ?_, ?_, ?_⟩
          · rw [scaledThreshold_le_iff v k9 hk]
            exact ha
          · intro j hj hsc
            rw [scaledThreshold_le_iff v k9 hk] at hsc
            interval_cases j
            · norm_num
            · norm_num
            · norm_num
            · exact absurd (show (20:ℚ) ≤ v * 500 / k9 from hsc) (by linarith)
            · exact absurd (show (40:ℚ) ≤ v * 500 / k9 from hsc) (by linarith)
            · exact absurd (show (70:ℚ) ≤ v * 500 / k9 from hsc) (by linarith)
            · exact absurd (show (120:ℚ) ≤ v * 500 / k9 from hsc) (by linarith)
            · exact absurd (show (200:ℚ) ≤ v * 500 / k9 from hsc) (by linarith)
            · exact absurd (show (330:ℚ) ≤ v * 500 / k9 from hsc) (by linarith)
            · exact absurd (show (500:ℚ) ≤ v * 500 / k9 from hsc) (by linarith)
          · rw [kQuantize_eq_of_count v k9 3 (by norm_num) (by norm_num)
              ((searchsorted_scaled v k9 hk).trans (countCase2 (v * 500 / k9) ha hb))]
        · rcases lt_or_le (v * 500 / k9) 40 with hb | ha
          · refine ⟨3, by norm_num, ?_, ?_, ?_⟩
            · rw [scaledThreshold_le_iff v k9 hk]
              exact ha
            · intro j hj hsc
              rw [scaledThreshold_le_iff v k9 hk] at hsc
              interval_cases j
              · norm_num
              · norm_num
              · norm_num
              · norm_num
              · exact absurd (show (40:ℚ) ≤ v * 500 / k9 from hsc) (by linarith)
              · exact absurd (show (70:ℚ) ≤ v * 500 / k9 from hsc) (by linarith)
              · exact absurd (show (120:ℚ) ≤ v * 500 / k9 from hsc) (by linarith)
              · exact absurd (show (200:ℚ) ≤ v * 500 / k9 from hsc) (by linarith)
              · exact absurd (show (330:ℚ) ≤ v * 500 / k9 from hsc) (by linarith)
              · exact absurd (show (500:ℚ) ≤ v * 500 / k9 from hsc) (by linarith)
            · rw [kQuantize_eq_of_count v k9 4 (by norm_num) (by norm_num)
                ((searchsorted_scaled v k9 hk).trans (countCase3 (v * 500 / k9) ha hb))]
          · rcases lt_or_le (v * 500 / k9) 70 with hb | ha
            · refine ⟨4, by norm_num, ?_, ?_, ?_⟩
              · rw [scaledThreshold_le_iff v k9 hk]
                exact ha
              · intro j hj hsc
                rw [scaledThreshold_le_iff v k9 hk] at hsc
                interval_cases j
                · norm_num
                · norm_num
                · norm_num
                · norm_num
                · norm_num
                · exact absurd (show (70:ℚ) ≤ v * 500 / k9 from hsc) (by linarith)
                · exact absurd (show (120:ℚ) ≤ v * 500 / k9 from hsc) (by linarith)
                · exact absurd (show (200:ℚ) ≤ v * 500 / k9 from hsc) (by linarith)
                · exact absurd (show (330:ℚ) ≤ v * 500 / k9 from hsc) (by linarith)
                · exact absurd (show (500:ℚ) ≤ v * 500 / k9 from hsc) (by linarith)
              · rw [kQuantize_eq_of_count v k9 5 (by norm_num) (by norm_num)
                  ((searchsorted_scaled v k9 hk).trans (countCase4 (v * 500 / k9) ha hb))]
            · rcases lt_or_le (v * 500 / k9) 120 with hb | ha
              · refine ⟨5, by norm_num, ?_, ?_, ?_⟩
                · rw [scaledThreshold_le_iff v k9 hk]
                  exact ha
                · intro j hj hsc
                  rw [scaledThreshold_le_iff v k9 hk] at hsc
                  interval_cases j
                  · norm_num
                  · norm_num
                  · norm_num
                  · norm_num
                  · norm_num
                  · norm_num
                  · exact absurd (show (120:ℚ) ≤ v * 500 / k9 from hsc) (by linarith)
                  · exact absurd (show (200:ℚ) ≤ v * 500 / k9 from hsc) (by linarith)
                  · exact absurd (show (330:ℚ) ≤ v * 500 / k9 from hsc) (by linarith)
                  · exact absurd (show (500:ℚ) ≤ v * 500 / k9 from hsc) (by linarith)
                · rw [kQuantize_eq_of_count v k9 6 (by norm_num) (by norm_num)
                    ((searchsorted_scaled v k9 hk).trans (countCase5 (v * 500 / k9) ha hb))]
              · rcases lt_or_le (v * 500 / k9) 200 with hb | ha
                · refine ⟨6, by norm_num, ?_, ?_, ?_⟩
                  · rw [scaledThreshold_le_iff v k9 hk]
                    exact ha
                  · intro j hj hsc
                    rw [scaledThreshold_le_iff v k9 hk] at hsc
                    interval_cases j
                    · norm_num
                    · norm_num
                    · norm_num
                    · norm_num
                    · norm_num
                    · norm_num
                    · norm_num
                    · exact absurd (show (200:ℚ) ≤ v * 500 / k9 from hsc) (by linarith)
                    · exact absurd (show (330:ℚ) ≤ v * 500 / k9 from hsc) (by linarith)
                    · exact absurd (show (500:ℚ) ≤ v * 500 / k9 from hsc) (by linarith)
                  · rw [kQuantize_eq_of_count v k9 7 (by norm_num) (by norm_num)
                      ((searchsorted_scaled v k9 hk).trans (countCase6 (v * 500 / k9) ha hb))]
                · rcases lt_or_le (v * 500 / k9) 330 with hb | ha
                  · refine ⟨7, by norm_num, ?_, ?_, ?_⟩
                    · rw [scaledThreshold_le_iff v k9 hk]
                      exact ha
                    · intro j hj hsc
                      rw [scaledThreshold_le_iff v k9 hk] at hsc
                      interval_cases j
                      · norm_num
                      · norm_num
                      · norm_num
                      · norm_num
                      · norm_num
                      · norm_num
                      · norm_num
                      · norm_num
                      · exact absurd (show (330:ℚ) ≤ v * 500 / k9 from hsc) (by linarith)
                      · exact absurd (show (500:ℚ) ≤ v * 500 / k9 from hsc) (by linarith)
                    · rw [kQuantize_eq_of_count v k9 8 (by norm_num) (by norm_num)
                        ((searchsorted_scaled v k9 hk).trans (countCase7 (v * 500 / k9) ha hb))]
                  · rcases lt_or_le (v * 500 / k9) 500 with hb | ha
                    · refine ⟨8, by norm_num, ?_, ?_, ?_⟩
                      · rw [scaledThreshold_le_iff v k9 hk]
                        exact ha
                      · intro j hj hsc
                        rw [scaledThreshold_le_iff v k9 hk] at hsc
                        interval_cases j
                        · norm_num
                        · norm_num
                        · norm_num
                        · norm_num
                        · norm_num
                        · norm_num
                        · norm_num
                        · norm_num
                        · norm_num
                        · exact absurd (show (500:ℚ) ≤ v * 500 / k9 from hsc) (by linarith)
                      · rw [kQuantize_eq_of_count v k9 9 (by norm_num) (by norm_num)
                          ((searchsorted_scaled v k9 hk).trans (countCase8 (v * 500 / k9) ha hb))]
                    · refine ⟨9, by norm_num, ?_, ?_, ?_⟩
                      · rw [scaledThreshold_le_iff v k9 hk]
                        exact ha
                      · intro j hj hsc
                        exact hj
                      · rw [kQuantize_eq_of_count v k9 10 (by norm_num) (by norm_num)
                          ((searchsorted_scaled v k9 hk).trans (countCase9 (v * 500 / k9) ha))]
  · refine ⟨?_, ?_, ?_⟩
    · rw [kQuantize_eq_of_count 120 500 7 (by norm_num) (by norm_num)
        ((searchsorted_scaled 120 500 (by norm_num)).trans
          (countCase6 (120 * 500 / 500) (by norm_num) (by norm_num)))]
      norm_num
    · rw [kQuantize_eq_of_count 4 500 1 (by norm_num) (by norm_num)
        ((searchsorted_scaled 4 500 (by norm_num)).trans
          (countCase0 (4 * 500 / 500) (by norm_num) (by norm_num)))]
      norm_num
    · rw [kQuantize_eq_of_count 501 500 10 (by norm_num) (by norm_num)
        ((searchsorted_scaled 501 500 (by norm_num)).trans
          (countCase9 (501 * 500 / 500) (by norm_num)))]
      norm_num

/-- Witness for C1 at the concrete input `v = 120`, `k9 = 500`. -/
theorem c1_quantizer_greatest_index_witness :
    (∃ i : ℕ, i ≤ 9 ∧ scaledThreshold 500 i ≤ 120 ∧
      (∀ j : ℕ, j ≤ 9 → scaledThreshold 500 j ≤ 120 → j ≤ i) ∧
      kQuantize 120 500 = if i = 0 then 1/4 else (i : ℚ)) ∧
    kQuantize 120 500 = 6 ∧ kQuantize 4 500 = 1/4 ∧ kQuantize 501 500 = 9 :=
  c1_quantizer_greatest_index 120 500 (by norm_num) (by norm_num)

/-- C5: doubling both the disturbance statistic and the K9 limit (500 to 1000)
yields the same K-index: the quantizer is scale invariant. -/
theorem c5_quantizer_scale_invariance (v : ℚ) :
    kQuantize (2 * v) 1000 = kQuantize v 500 := by
  unfold kQuantize
  rw [searchsorted_scaled (2 * v) 1000 (by norm_num),
    searchsorted_scaled v 500 (by norm_num),
    show 2 * v * 500 / 1000 = v by ring, show v * 500 / 500 = v by ring]

/-- C2 counterexample: with input times `[90000, 0]` (first sample inside the
second UTC day, earliest sample at epoch `0`) the aggregator anchors
`day_start` at `86400`, not at midnight `0` of the calendar day containing
the earliest sample, refuting the claim as stated. -/
theorem c2_window_anchor_counterexample :
    dayStart [90000, 0] = 86400 ∧
    midnightOfDay (earliestTime [90000, 0]) = 0 ∧
    dayStart [90000, 0] ≠ midnightOfDay (earliestTime [90000, 0]) := by
  refine ⟨by decide, by decide, by decide⟩

/-- C2 (amended): for every nonempty input, `day_start` is midnight UTC of
the calendar day containing the FIRST sample's timestamp
(`minute_time_float[0]`) — which is the earliest sample's day exactly when
the input is sorted ascending, the order the callers that sort provide —
every sample is assigned to block `floor((t - day_start) / 10800)` (block
indices may be negative), and the emitted windows are exactly the distinct
block indices present. -/
theorem c2_window_anchor (times : List ℤ) (xs ys : List ℚ) (k9 : ℚ)
    (t0 : ℤ) (ts : List ℤ) (hts : times = t0 :: ts) :
    dayStart times = midnightOfDay t0 ∧
    (times.Sorted (· ≤ ·) → dayStart times = midnightOfDay (earliestTime times)) ∧
    hourBlocks times (dayStart times)
      = times.map (fun t => Int.fdiv (t - dayStart times) 10800) ∧
    (∀ b : ℤ, b ∈ windowBlocks times ↔ b ∈ hourBlocks times (dayStart times)) ∧
    (calculate_k_index times xs ys k9).2
      = (windowBlocks times).map (fun b => dayStart times + b * 10800 + 5400) := by
  subst hts
  refine ⟨rfl, ?_, rfl, fun b => uniqueSorted_mem _ b, ?_⟩
  · intro hs
    rw [earliestTime_of_sorted t0 ts hs]
    rfl
  · unfold calculate_k_index
    rw [if_neg (List.cons_ne_nil t0 ts)]

/-- Witness for C2 (amended) at the concrete input `[90000, 0]`. -/
theorem c2_window_anchor_witness :
    dayStart [90000, 0] = midnightOfDay 90000 ∧
    (([90000, 0] : List ℤ).Sorted (· ≤ ·) →
      dayStart [90000, 0] = midnightOfDay (earliestTime [90000, 0])) ∧
    hourBlocks [90000, 0] (dayStart [90000, 0])
      = ([90000, 0] : List ℤ).map (fun t => Int.fdiv (t - dayStart [90000, 0]) 10800) ∧
    (∀ b : ℤ, b ∈ windowBlocks [90000, 0] ↔ b ∈ hourBlocks [90000, 0] (dayStart [90000, 0])) ∧
    (calculate_k_index [90000, 0] [1, 2] [3, 4] 500).2
      = (windowBlocks [90000, 0]).map (fun b => dayStart [90000, 0] + b * 10800 + 5400) :=
  c2_window_anchor [90000, 0] [1, 2] [3, 4] 500 90000 [0] rfl

/-- C3: every emitted window's statistic is the larger of the two selected
components' peak-to-peak ranges when the block holds more than one sample
and `0` when it holds exactly one (such a window quantizes to `0.25`, never
an error); windows are emitted in ascending block order with representative
timestamp `day_start + block * 10800 + 5400`. -/
theorem c3_block_statistic (times : List ℤ) (xs ys : List ℚ) (k9 : ℚ)
    (hne : times ≠ []) (hk : 0 < k9)
    (hx : xs.length = times.length) (hy : ys.length = times.length) :
    (windowBlocks times).Sorted (· < ·) ∧
    (calculate_k_index times xs ys k9).2
      = (windowBlocks times).map (fun b => dayStart times + b * 10800 + 5400) ∧
    (calculate_k_index times xs ys k9).1
      = (windowBlocks times).map (fun b =>
          kQuantize (blockVariation (hourBlocks times (dayStart times)) xs ys b) k9) ∧
    (∀ b : ℤ, 1 < maskCount (hourBlocks times (dayStart times)) b →
      blockVariation (hourBlocks times (dayStart times)) xs ys b
        = max (ptp (selectVals (hourBlocks times (dayStart times)) xs b))
            (ptp (selectVals (hourBlocks times (dayStart times)) ys b))) ∧
    (∀ b : ℤ, maskCount (hourBlocks times (dayStart times)) b = 1 →
      (selectVals (hourBlocks times (dayStart times)) xs b).length = 1 ∧
      blockVariation (hourBlocks times (dayStart times)) xs ys b = 0 ∧
      kQuantize (blockVariation (hourBlocks times (dayStart times)) xs ys b) k9 = 1/4) := by
  refine ⟨uniqueSorted_sorted_lt _, ?_, ?_, ?_, ?_⟩
  · unfold calculate_k_index
    rw [if_neg hne]
  · unfold calculate_k_index
    rw [if_neg hne]
  · intro b hb
    unfold blockVariation
    rw [if_pos hb]
  · intro b hb
    have h0 : blockVariation (hourBlocks times (dayStart times)) xs ys b = 0 := by
      unfold blockVariation
      rw [if_neg (by omega)]
    refine ⟨?_, h0, ?_⟩
    · rw [selectVals_length (hourBlocks times (dayStart times)) xs b
        (by simp [hourBlocks, hx])]
      exact hb
    · rw [h0]
      exact kQuantize_zero k9 hk

/-- Witness for C3 at a concrete input with a two-sample block and a
single-sample block. -/
theorem c3_block_statistic_witness :
    (windowBlocks [0, 60, 10800]).Sorted (· < ·) ∧
    (calculate_k_index [0, 60, 10800] [1, 5, 2] [0, 0, 7] 500).2
      = (windowBlocks [0, 60, 10800]).map
          (fun b => dayStart [0, 60, 10800] + b * 10800 + 5400) ∧
    (calculate_k_index [0, 60, 10800] [1, 5, 2] [0, 0, 7] 500).1
      = (windowBlocks [0, 60, 10800]).map (fun b =>
          kQuantize (blockVariation (hourBlocks [0, 60, 10800] (dayStart [0, 60, 10800]))
            [1, 5, 2] [0, 0, 7] b) 500) ∧
    (∀ b : ℤ, 1 < maskCount (hourBlocks [0, 60, 10800] (dayStart [0, 60, 10800])) b →
      blockVariation (hourBlocks [0, 60, 10800] (dayStart [0, 60, 10800])) [1, 5, 2] [0, 0, 7] b
        = max (ptp (selectVals (hourBlocks [0, 60, 10800] (dayStart [0, 60, 10800])) [1, 5, 2] b))
            (ptp (selectVals (hourBlocks [0, 60, 10800] (dayStart [0, 60, 10800])) [0, 0, 7] b))) ∧
    (∀ b : ℤ, maskCount (hourBlocks [0, 60, 10800] (dayStart [0, 60, 10800])) b = 1 →
      (selectVals (hourBlocks [0, 60, 10800] (dayStart [0, 60, 10800])) [1, 5, 2] b).length = 1 ∧
      blockVariation (hourBlocks [0, 60, 10800] (dayStart [0, 60, 10800])) [1, 5, 2] [0, 0, 7] b = 0 ∧
      kQuantize (blockVariation (hourBlocks [0, 60, 10800] (dayStart [0, 60, 10800]))
        [1, 5, 2] [0, 0, 7] b) 500 = 1/4) :=
  c3_block_statistic [0, 60, 10800] [1, 5, 2] [0, 0, 7] 500 (by decide) (by norm_num) rfl rfl

/-- C9: an empty input yields empty results everywhere without an error: the
quality filter returns the empty batch unchanged, and the window aggregator
with quantizer emit zero windows (empty K-value and timestamp sequences). -/
theorem c9_empty_input :
    (∀ ncomp : ℕ, preprocess_data [] ncomp = []) ∧
    (∀ (xs ys : List ℚ) (k9 : ℚ), calculate_k_index [] xs ys k9 = ([], [])) :=
  ⟨fun _ => rfl, fun _ _ _ => rfl⟩

/-- C4: in a batch where at least one selected component has nonzero
variance, a sample is retained only if EVERY selected component's standard
score is within `2.5` in absolute value; a sample failing on one component
is dropped even when the others pass, and the output is a subsequence of
the input (no sample invented or duplicated).  The last conjunct ties the
square-root-free retention test to the real-valued standard score. -/
theorem c4_joint_score_filter (rows : List Sample) (ncomp : ℕ)
    (hvar : ∃ i, i < ncomp ∧ 0 < ssd (col rows i)) :
    (preprocess_data rows ncomp).Sublist rows ∧
    (∀ r ∈ preprocess_data rows ncomp, ∀ i < ncomp,
      zOK (col rows i) (r.vals.getD i none) = true) ∧
    (∀ r ∈ rows, ∀ i < ncomp, zOK (col rows i) (r.vals.getD i none) = false →
      r ∉ preprocess_data rows ncomp) ∧
    (∀ (c : List (Option ℚ)) (x : ℚ), sampleStdPos c = true →
      (zOK c (some x) = true ↔
        |(x : ℝ) - (meanQ c : ℝ)| / Real.sqrt ((ssd c : ℝ) / (nval c : ℝ)) ≤ 5/2)) := by
  have hmem : ∀ r ∈ preprocess_data rows ncomp, ∀ i < ncomp,
      zOK (col rows i) (r.vals.getD i none) = true := by
    intro r hr i hi
    unfold preprocess_data at hr
    by_cases hrows : rows = []
    · rw [if_pos hrows, hrows] at hr
      exact absurd hr (List.not_mem_nil r)
    · rw [if_neg hrows] at hr
      have hall := (List.mem_filter.mp hr).2
      exact List.all_eq_true.mp hall i (List.mem_range.mpr hi)
  refine ⟨?_, hmem, ?_, fun c x h => zOK_iff_abs_score_le c x h⟩
  · unfold preprocess_data
    by_cases hrows : rows = []
    · rw [if_pos hrows]
    · rw [if_neg hrows]
      exact List.filter_sublist rows
  · intro r hr i hi hfalse hcontra
    have h1 := hmem r hcontra i hi
    rw [hfalse] at h1
    exact Bool.false_ne_true h1

/-- Witness for C4: a two-row, two-component batch where the first component
has nonzero variance. -/
theorem c4_joint_score_filter_witness :
    (preprocess_data [⟨0, [some 0, some 0]⟩, ⟨1, [some 1, some 0]⟩] 2).Sublist
      [⟨0, [some 0, some 0]⟩, ⟨1, [some 1, some 0]⟩] ∧
    (∀ r ∈ preprocess_data [⟨0, [some 0, some 0]⟩, ⟨1, [some 1, some 0]⟩] 2, ∀ i < 2,
      zOK (col [⟨0, [some 0, some 0]⟩, ⟨1, [some 1, some 0]⟩] i) (r.vals.getD i none) = true) ∧
    (∀ r ∈ ([⟨0, [some 0, some 0]⟩, ⟨1, [some 1, some 0]⟩] : List Sample), ∀ i < 2,
      zOK (col [⟨0, [some 0, some 0]⟩, ⟨1, [some 1, some 0]⟩] i) (r.vals.getD i none) = false →
      r ∉ preprocess_data [⟨0, [some 0, some 0]⟩, ⟨1, [some 1, some 0]⟩] 2) ∧
    (∀ (c : List (Option ℚ)) (x : ℚ), sampleStdPos c = true →
      (zOK c (some x) = true ↔
        |(x : ℝ) - (meanQ c : ℝ)| / Real.sqrt ((ssd c : ℝ) / (nval c : ℝ)) ≤ 5/2)) :=
  c4_joint_score_filter [⟨0, [some 0, some 0]⟩, ⟨1, [some 1, some 0]⟩] 2
    ⟨0, by norm_num, by with_unfolding_all decide⟩

set_option maxRecDepth 1024 in
/-- C8 counterexample: a component with near-zero (but nonzero) variance
still rejects samples, because standard scores are scale invariant: in
`nearZeroRows` the variance is below `10 ^ (-12)` yet the spike row is
dropped on account of that component. -/
theorem c8_zero_variance_counterexample :
    0 < ssd (col nearZeroRows 0) ∧
    ssd (col nearZeroRows 0) / (nval (col nearZeroRows 0) : ℚ) < 1 / 10 ^ 12 ∧
    (⟨7, [some (1/1000000)]⟩ : Sample) ∈ nearZeroRows ∧
    (⟨7, [some (1/1000000)]⟩ : Sample) ∉ preprocess_data nearZeroRows 1 := by
  refine ⟨by with_unfolding_all decide, by with_unfolding_all decide, ?_,
    by with_unfolding_all decide⟩
  unfold nearZeroRows
  exact List.mem_cons_of_mem _ (List.mem_cons_of_mem _ (List.mem_cons_of_mem _
    (List.mem_cons_of_mem _ (List.mem_cons_of_mem _ (List.mem_cons_of_mem _
    (List.mem_cons_of_mem _ (List.mem_cons_self _ _)))))))

/-- C8 (amended): a component whose variance is exactly zero — the
`std > 0` guard failing, which includes all-missing and single-entry columns
whose sample std is NaN — contributes no rejection: its scores are the
neutral zeros, every sample passes it (so no NaN score arising from a zero
denominator can drop a sample), and membership in the output is decided by
the other components alone.  (The claim's "near-zero variance" reading is
refuted by `c8_zero_variance_counterexample`: standard scores are scale
invariant, so a tiny positive variance still rejects.) -/
theorem c8_zero_variance_neutral (rows : List Sample) (ncomp i : ℕ)
    (hi : i < ncomp) (hz : ssd (col rows i) = 0) :
    sampleStdPos (col rows i) = false ∧
    (∀ v : Option ℚ, zOK (col rows i) v = true) ∧
    (∀ r : Sample, r ∈ preprocess_data rows ncomp ↔
      (r ∈ rows ∧ ∀ j, j < ncomp → j ≠ i →
        zOK (col rows j) (r.vals.getD j none) = true)) := by
  have hgate : sampleStdPos (col rows i) = false := (sampleStdPos_false_iff _).mpr hz
  have hpass : ∀ v : Option ℚ, zOK (col rows i) v = true := by
    intro v
    unfold zOK
    rw [if_neg (by simp [hgate])]
  refine ⟨hgate, hpass, ?_⟩
  intro r
  by_cases hrows : rows = []
  · subst hrows
    unfold preprocess_data
    simp
  · unfold preprocess_data
    rw [if_neg hrows, List.mem_filter]
    constructor
    · rintro ⟨hm, hall⟩
      exact ⟨hm, fun j hj _ => List.all_eq_true.mp hall j (List.mem_range.mpr hj)⟩
    · rintro ⟨hm, hothers⟩
      refine ⟨hm, List.all_eq_true.mpr fun j hj => ?_⟩
      by_cases hji : j = i
      · subst hji
        exact hpass _
      · exact hothers j (List.mem_range.mp hj) hji

/-- Witness for C8 (amended): a two-row batch whose first component is
constant (zero variance) while the second varies. -/
theorem c8_zero_variance_neutral_witness :
    sampleStdPos (col [⟨0, [some 5, some 0]⟩, ⟨1, [some 5, some 9]⟩] 0) = false ∧
    (∀ v : Option ℚ, zOK (col [⟨0, [some 5, some 0]⟩, ⟨1, [some 5, some 9]⟩] 0) v = true) ∧
    (∀ r : Sample, r ∈ preprocess_data [⟨0, [some 5, some 0]⟩, ⟨1, [some 5, some 9]⟩] 2 ↔
      (r ∈ ([⟨0, [some 5, some 0]⟩, ⟨1, [some 5, some 9]⟩] : List Sample) ∧ ∀ j, j < 2 → j ≠ 0 →
        zOK (col [⟨0, [some 5, some 0]⟩, ⟨1, [some 5, some 9]⟩] j) (r.vals.getD j none) = true)) :=
  c8_zero_variance_neutral [⟨0, [some 5, some 0]⟩, ⟨1, [some 5, some 9]⟩] 2 0
    (by norm_num) (by with_unfolding_all decide)

/-- C10: when a component column has nonzero variance, a sample missing that
component's value is dropped: the missing entry's score is NaN, the
comparison `|score| <= 2.5` evaluates false for it, and the joint mask
excludes the sample — even though the missing entry was excluded from the
mean and standard-deviation computation (`validVals` keeps only present
entries, the final conjunct). -/
theorem c10_missing_value_dropped (rows : List Sample) (ncomp i : ℕ) (r : Sample)
    (hi : i < ncomp) (hvar : 0 < ssd (col rows i))
    (hmiss : r.vals.getD i none = none) :
    zOK (col rows i) (r.vals.getD i none) = false ∧
    r ∉ preprocess_data rows ncomp ∧
    validVals (col rows i) = (col rows i).filterMap id := by
  have hgate : sampleStdPos (col rows i) = true := (sampleStdPos_iff _).mpr hvar
  have hfalse : zOK (col rows i) (r.vals.getD i none) = false := by
    rw [hmiss]
    unfold zOK
    rw [if_pos hgate]
  refine ⟨hfalse, ?_, rfl⟩
  intro hmem
  unfold preprocess_data at hmem
  by_cases hrows : rows = []
  · rw [if_pos hrows, hrows] at hmem
    exact absurd hmem (List.not_mem_nil r)
  · rw [if_neg hrows] at hmem
    have hall := (List.mem_filter.mp hmem).2
    have h1 : zOK (col rows i) (r.vals.getD i none) = true :=
      List.all_eq_true.mp hall i (List.mem_range.mpr hi)
    rw [hfalse] at h1
    exact Bool.false_ne_true h1

/-- Witness for C10: a three-row single-component batch whose third row has
a missing value. -/
theorem c10_missing_value_dropped_witness :
    zOK (col [⟨0, [some 0]⟩, ⟨1, [some 1]⟩, ⟨2, [none]⟩] 0)
      ((⟨2, [none]⟩ : Sample).vals.getD 0 none) = false ∧
    (⟨2, [none]⟩ : Sample) ∉ preprocess_data [⟨0, [some 0]⟩, ⟨1, [some 1]⟩, ⟨2, [none]⟩] 1 ∧
    validVals (col [⟨0, [some 0]⟩, ⟨1, [some 1]⟩, ⟨2, [none]⟩] 0)
      = (col [⟨0, [some 0]⟩, ⟨1, [some 1]⟩, ⟨2, [none]⟩] 0).filterMap id :=
  c10_missing_value_dropped [⟨0, [some 0]⟩, ⟨1, [some 1]⟩, ⟨2, [none]⟩] 1 0 ⟨2, [none]⟩
    (by norm_num) (by with_unfolding_all decide) rfl

/-- C6: the parser resolves the measured-component triplet by the ordered
cascade — (a) generic `X,Y,Z` then generic `H,D,Z` in the header; (b)
station-prefixed labels, renamed to the generic ones; (c) a `Reported`
metadata line before the header decoding `XYZF`/`XYZ` to Cartesian or
`HDZF`/`HDZ` to horizontal — and, once a header line is found, it fails
with the no-valid-components `FormatError` (returning no samples) exactly
when none of the three paths resolves. -/
theorem c6_resolution_cascade (lines : List String) (i : ℕ)
    (hhdr : lines.findIdx? isHeaderLine = some i) :
    (read_iaga2002 lines = Except.error FormatError.noValidComponents ↔
      resolveComponents (headerFieldsOf (lines.getD i "")) (lines.take i) = none) ∧
    (∀ hf ml : List String, allIn ["X", "Y", "Z"] hf = true →
      resolveComponents hf ml = some ["X", "Y", "Z"]) ∧
    (∀ hf ml : List String, allIn ["X", "Y", "Z"] hf = false →
      allIn ["H", "D", "Z"] hf = true →
      resolveComponents hf ml = some ["H", "D", "Z"]) ∧
    (∀ hf ml : List String, allIn ["X", "Y", "Z"] hf = false →
      allIn ["H", "D", "Z"] hf = false → allIn ["ENTX", "ENTY", "ENTZ"] hf = true →
      resolveComponents hf ml = some ["X", "Y", "Z"]) ∧
    (∀ hf ml : List String, allIn ["X", "Y", "Z"] hf = false →
      allIn ["H", "D", "Z"] hf = false → allIn ["ENTX", "ENTY", "ENTZ"] hf = false →
      allIn ["ENTH", "ENTD", "ENTZ"] hf = true →
      resolveComponents hf ml = some ["H", "D", "Z"]) ∧
    (∀ hf ml : List String, allIn ["X", "Y", "Z"] hf = false →
      allIn ["H", "D", "Z"] hf = false → allIn ["ENTX", "ENTY", "ENTZ"] hf = false →
      allIn ["ENTH", "ENTD", "ENTZ"] hf = false →
      resolveComponents hf ml = scanReported ml) ∧
    (decodeReported "XYZF" = some ["X", "Y", "Z"] ∧
      decodeReported "XYZ" = some ["X", "Y", "Z"] ∧
      decodeReported "HDZF" = some ["H", "D", "Z"] ∧
      decodeReported "HDZ" = some ["H", "D", "Z"]) ∧
    (∀ hf : List String, "ENTX" ∈ hf →
      renamedHeader hf = hf.map (fun f => if f = "ENTX" then "X" else if f = "ENTY" then "Y"
        else if f = "ENTZ" then "Z" else f)) := by
  refine ⟨?_, ?_, ?_, ?_, ?_, ?_, ⟨by decide, by decide, by decide, by decide⟩, ?_⟩
  · simp only [read_iaga2002, hhdr]
    cases hres : resolveComponents (headerFieldsOf (lines.getD i "")) (lines.take i) with
    | none => simp [hres]
    | some comps =>
      simp only [hres]
      constructor
      · intro h
        split at h
        · exact absurd h (by simp)
        · exact absurd h (by simp)
      · intro h
        exact absurd h (by simp)
  · intro hf ml h1
    unfold resolveComponents
    rw [if_pos h1]
  · intro hf ml h1 h2
    unfold resolveComponents
    rw [if_neg (by simp [h1]), if_pos h2]
  · intro hf ml h1 h2 h3
    unfold resolveComponents
    rw [if_neg (by simp [h1]), if_neg (by simp [h2]), if_pos h3]
  · intro hf ml h1 h2 h3 h4
    unfold resolveComponents
    rw [if_neg (by simp [h1]), if_neg (by simp [h2]), if_neg (by simp [h3]), if_pos h4]
  · intro hf ml h1 h2 h3 h4
    unfold resolveComponents
    rw [if_neg (by simp [h1]), if_neg (by simp [h2]), if_neg (by simp [h3]),
      if_neg (by simp [h4])]
  · intro hf h
    unfold renamedHeader
    rw [if_pos h]

/-- Witness for C6 on a file whose header carries station-prefixed labels. -/
theorem c6_resolution_cascade_witness :
    (read_iaga2002 ["Format IAGA-2002", "DATE TIME DOY ENTX ENTY ENTZ"]
        = Except.error FormatError.noValidComponents ↔
      resolveComponents
        (headerFieldsOf (["Format IAGA-2002", "DATE TIME DOY ENTX ENTY ENTZ"].getD 1 ""))
        (["Format IAGA-2002", "DATE TIME DOY ENTX ENTY ENTZ"].take 1) = none) ∧
    (∀ hf ml : List String, allIn ["X", "Y", "Z"] hf = true →
      resolveComponents hf ml = some ["X", "Y", "Z"]) ∧
    (∀ hf ml : List String, allIn ["X", "Y", "Z"] hf = false →
      allIn ["H", "D", "Z"] hf = true →
      resolveComponents hf ml = some ["H", "D", "Z"]) ∧
    (∀ hf ml : List String, allIn ["X", "Y", "Z"] hf = false →
      allIn ["H", "D", "Z"] hf = false → allIn ["ENTX", "ENTY", "ENTZ"] hf = true →
      resolveComponents hf ml = some ["X", "Y", "Z"]) ∧
    (∀ hf ml : List String, allIn ["X", "Y", "Z"] hf = false →
      allIn ["H", "D", "Z"] hf = false → allIn ["ENTX", "ENTY", "ENTZ"] hf = false →
      allIn ["ENTH", "ENTD", "ENTZ"] hf = true →
      resolveComponents hf ml = some ["H", "D", "Z"]) ∧
    (∀ hf ml : List String, allIn ["X", "Y", "Z"] hf = false →
      allIn ["H", "D", "Z"] hf = false → allIn ["ENTX", "ENTY", "ENTZ"] hf = false →
      allIn ["ENTH", "ENTD", "ENTZ"] hf = false →
      resolveComponents hf ml = scanReported ml) ∧
    (decodeReported "XYZF" = some ["X", "Y", "Z"] ∧
      decodeReported "XYZ" = some ["X", "Y", "Z"] ∧
      decodeReported "HDZF" = some ["H", "D", "Z"] ∧
      decodeReported "HDZ" = some ["H", "D", "Z"]) ∧
    (∀ hf : List String, "ENTX" ∈ hf →
      renamedHeader hf = hf.map (fun f => if f = "ENTX" then "X" else if f = "ENTY" then "Y"
        else if f = "ENTZ" then "Z" else f)) :=
  c6_resolution_cascade ["Format IAGA-2002", "DATE TIME DOY ENTX ENTY ENTZ"] 1 rfl

/-- C7: a successfully parsed file never carries a component value equal to
the sentinels `99999.00` / `99999.9` — every sentinel cell decodes to
missing, not to the literal number. -/
theorem c7_sentinels_decode_missing (lines : List String) (pf : ParsedFile)
    (hok : read_iaga2002 lines = Except.ok pf) :
    ∀ s ∈ pf.samples, ∀ v ∈ s.vals,
      v ≠ some (99999 : ℚ) ∧ v ≠ some (999999 / 10 : ℚ) := by
  have hval : ∀ tok : String, parseValue tok ≠ some (99999 : ℚ) ∧
      parseValue tok ≠ some (999999 / 10 : ℚ) := by
    intro tok
    unfold parseValue
    cases hr : parseRat tok with
    | none => simp
    | some v =>
      rw [Option.some_bind]
      by_cases hv : v = 99999 ∨ v = 999999 / 10
      · rw [if_pos hv]
        simp
      · rw [if_neg hv]
        push_neg at hv
        simp [hv.1, hv.2]
  simp only [read_iaga2002] at hok
  split at hok
  · exact absurd hok (by simp)
  · rename_i i hfind
    split at hok
    · exact absurd hok (by simp)
    · rename_i comps hres
      split at hok
      · injection hok with hok
        subst hok
        intro s hs v hv
        have hs2 : s ∈ (lines.drop (i + 1)).filterMap
            (parseRow (renamedHeader (headerFieldsOf (lines.getD i ""))) comps) := hs
        rcases List.mem_filterMap.mp hs2 with ⟨line, hline, hparse⟩
        simp only [parseRow] at hparse
        rw [Option.bind_eq_some] at hparse
        obtain ⟨dtok, hd1, hparse⟩ := hparse
        rw [Option.bind_eq_some] at hparse
        obtain ⟨ttok, ht1, hparse⟩ := hparse
        rw [Option.bind_eq_some] at hparse
        obtain ⟨dv, hd2, hparse⟩ := hparse
        rw [Option.bind_eq_some] at hparse
        obtain ⟨tv, ht2, hparse⟩ := hparse
        injection hparse with hparse
        subst hparse
        have hv2 : v ∈ comps.map (fun c =>
            (tokenAt (pySplit line) (renamedHeader (headerFieldsOf (lines.getD i ""))) c).bind
              parseValue) := hv
        rcases List.mem_map.mp hv2 with ⟨cname, hc, hveq⟩
        subst hveq
        cases htok : tokenAt (pySplit line)
            (renamedHeader (headerFieldsOf (lines.getD i ""))) cname with
        | none => simp
        | some tok => simpa using hval tok
      · exact absurd hok (by simp)

/-- Witness for C7: a one-row file whose `Z` cell is the sentinel `99999.9`;
the parse succeeds and the sentinel decodes to missing. -/
theorem c7_sentinels_decode_missing_witness :
    read_iaga2002 ["DATE TIME DOY X Y Z", "2024-09-05 00:00:00.000 249 100 200 99999.9"]
      = Except.ok ⟨[⟨1725494400, [some 100, some 200, none]⟩], ["X", "Y", "Z"]⟩ ∧
    (∀ s ∈ (⟨[⟨1725494400, [some 100, some 200, none]⟩],
        ["X", "Y", "Z"]⟩ : ParsedFile).samples,
      ∀ v ∈ s.vals, v ≠ some (99999 : ℚ) ∧ v ≠ some (999999 / 10 : ℚ)) := by
  have hX : parseValue "100" = some 100 := by
    unfold parseValue
    rw [show parseRat "100" = some ((1 : ℚ) * ((100 : ℕ) : ℚ)) from by with_unfolding_all rfl,
      Option.some_bind, if_neg (by norm_num)]
    norm_num
  have hY : parseValue "200" = some 200 := by
    unfold parseValue
    rw [show parseRat "200" = some ((1 : ℚ) * ((200 : ℕ) : ℚ)) from by with_unfolding_all rfl,
      Option.some_bind, if_neg (by norm_num)]
    norm_num
  have hZ : parseValue "99999.9" = none := by
    unfold parseValue
    rw [show parseRat "99999.9"
        = some ((1 : ℚ) * (((99999 : ℕ) : ℚ) + ((9 : ℕ) : ℚ) / (10 : ℚ) ^ 1)) from by
          with_unfolding_all rfl,
      Option.some_bind, if_pos (by norm_num)]
  have hrow : parseRow ["DATE", "TIME", "DOY", "X", "Y", "Z"] ["X", "Y", "Z"]
      "2024-09-05 00:00:00.000 249 100 200 99999.9"
      = some ⟨1725494400, [some 100, some 200, none]⟩ := by
    simp only [parseRow,
      show pySplit "2024-09-05 00:00:00.000 249 100 200 99999.9"
        = ["2024-09-05", "00:00:00.000", "249", "100", "200", "99999.9"] from rfl,
      show tokenAt ["2024-09-05", "00:00:00.000", "249", "100", "200", "99999.9"]
        ["DATE", "TIME", "DOY", "X", "Y", "Z"] "DATE" = some "2024-09-05" from rfl,
      show tokenAt ["2024-09-05", "00:00:00.000", "249", "100", "200", "99999.9"]
        ["DATE", "TIME", "DOY", "X", "Y", "Z"] "TIME" = some "00:00:00.000" from rfl,
      show parseDate "2024-09-05" = some (2024, 9, 5) from by with_unfolding_all rfl,
      show parseTime "00:00:00.000" = some (0, 0, 0) from by with_unfolding_all rfl,
      Option.some_bind, List.map_cons, List.map_nil,
      show tokenAt ["2024-09-05", "00:00:00.000", "249", "100", "200", "99999.9"]
        ["DATE", "TIME", "DOY", "X", "Y", "Z"] "X" = some "100" from rfl,
      show tokenAt ["2024-09-05", "00:00:00.000", "249", "100", "200", "99999.9"]
        ["DATE", "TIME", "DOY", "X", "Y", "Z"] "Y" = some "200" from rfl,
      show tokenAt ["2024-09-05", "00:00:00.000", "249", "100", "200", "99999.9"]
        ["DATE", "TIME", "DOY", "X", "Y", "Z"] "Z" = some "99999.9" from rfl,
      hX, hY, hZ]
    rfl
  have hread : read_iaga2002
      ["DATE TIME DOY X Y Z", "2024-09-05 00:00:00.000 249 100 200 99999.9"]
      = Except.ok ⟨[⟨1725494400, [some 100, some 200, none]⟩], ["X", "Y", "Z"]⟩ := by
    simp only [read_iaga2002,
      show (["DATE TIME DOY X Y Z",
        "2024-09-05 00:00:00.000 249 100 200 99999.9"].findIdx? isHeaderLine)
        = some 0 from rfl,
      show headerFieldsOf (["DATE TIME DOY X Y Z",
        "2024-09-05 00:00:00.000 249 100 200 99999.9"].getD 0 "")
        = ["DATE", "TIME", "DOY", "X", "Y", "Z"] from rfl,
      show resolveComponents ["DATE", "TIME", "DOY", "X", "Y", "Z"]
        (["DATE TIME DOY X Y Z", "2024-09-05 00:00:00.000 249 100 200 99999.9"].take 0)
        = some ["X", "Y", "Z"] from rfl,
      show renamedHeader ["DATE", "TIME", "DOY", "X", "Y", "Z"]
        = ["DATE", "TIME", "DOY", "X", "Y", "Z"] from rfl]
    rw [if_pos (by decide)]
    rw [show (["DATE TIME DOY X Y Z",
        "2024-09-05 00:00:00.000 249 100 200 99999.9"].drop 1)
        = ["2024-09-05 00:00:00.000 249 100 200 99999.9"] from rfl,
      List.filterMap_cons, hrow]
    simp only [List.filterMap_nil]
  exact ⟨hread, c7_sentinels_decode_missing _ _ hread⟩
